import Mathlib

/-!
Verification of the chart-annotation overlay core of the JKM-AI-BOT
frontend (ChartBoard / drawing tools / renderer / storage).

Shallow embedding conventions:
* JavaScript numbers are modelled as rationals (`ℚ`); where the code can
  see non-finite numbers (`NaN`, `±Infinity`), the sum type `JSNum` is
  used, mirroring `typeof x === 'number'` / `Number.isFinite(x)` checks.
* Raw (untyped) JavaScript values flowing through `JSON.parse` /
  `localStorage` are modelled by the inductive `JVal`.
* Fallible coordinate conversions (`coordinateToTime`, `priceToCoordinate`,
  …) return `Option`.
-/

namespace JKM

/-- A JavaScript number: either a finite value (modelled as a rational)
or one of the non-finite values (`NaN`, `Infinity`, `-Infinity`). -/
inductive JSNum where
  | finite (q : ℚ)
  | nan
  | posInf
  | negInf
deriving DecidableEq, Repr

/-- `Number.isFinite` on a JavaScript number. -/
def JSNum.isFinite : JSNum → Bool
  | .finite _ => true
  | _ => false

/-- A JSON-representable JavaScript value (the fragment relevant to the
drawing store: `null`, booleans, numbers, strings, arrays, objects). -/
inductive JVal where
  | null
  | bool (b : Bool)
  | num (n : JSNum)
  | str (s : String)
  | arr (xs : List JVal)
  | obj (fields : List (String × JVal))

/-- First-match field lookup on an object's field list. -/
def lookupField (fs : List (String × JVal)) (k : String) : Option JVal :=
  match fs with
  | [] => none
  | (k2, v) :: rest => if k2 = k then some v else lookupField rest k

/-- `isObject(value)` from `drawing/storage.ts`:
`Boolean(value) && typeof value === 'object'`.  JavaScript arrays are
objects; `null` is excluded by the `Boolean` coercion. -/
def isObject : JVal → Bool
  | .obj _ => true
  | .arr _ => true
  | _ => false

/-- Property access `value.k` on a JavaScript value; `none` models
`undefined` (missing field, or access on a non-object). -/
def getField (v : JVal) (k : String) : Option JVal :=
  match v with
  | .obj fs => lookupField fs k
  | _ => none

/-- `typeof x === 'string'` on an accessed property. -/
def isStringVal : Option JVal → Bool
  | some (.str _) => true
  | _ => false

/-- `typeof x === 'number'` on an accessed property (`NaN` and the
infinities are numbers). -/
def isNumberVal : Option JVal → Bool
  | some (.num _) => true
  | _ => false

/-- `typeof x === 'number' && Number.isFinite(x)` on an accessed property. -/
def isFiniteNumberVal : Option JVal → Bool
  | some (.num n) => n.isFinite
  | _ => false

/-- `isValidShape` from `drawing/storage.ts`: structural validation of one
stored shape entry. -/
def isValidShape (v : JVal) : Bool :=
  if !isObject v then false else
  match getField v "kind" with
  | some (.str kind) =>
    if kind = "level" ∨ kind = "trendline" ∨ kind = "zone" then
      if !isStringVal (getField v "id") then false else
      if !isNumberVal (getField v "createdAt") then false else
      if kind = "level" then
        isFiniteNumberVal (getField v "price")
      else
        match getField v "a", getField v "b" with
        | some a, some b =>
          isObject a && isObject b &&
          isNumberVal (getField a "time") && isNumberVal (getField a "price") &&
          isNumberVal (getField b "time") && isNumberVal (getField b "price")
        | _, _ => false
    else false
  | _ => false

/-- The raw content found under the storage key, as seen by
`loadDrawings`: the item may be absent (or empty), may fail to
`JSON.parse`, or parses to a value. -/
inductive StoredRaw where
  | absent
  | unparsable
  | parsed (v : JVal)

/-- `loadDrawings` from `drawing/storage.ts`: accept only a `version === 1`
envelope whose `shapes` is an array, filter entries through
`isValidShape`; every failure path returns `[]`. -/
def loadDrawings : StoredRaw → List JVal
  | .absent => []
  | .unparsable => []
  | .parsed v =>
    if !isObject v then [] else
    match getField v "version", getField v "shapes" with
    | some (.num (.finite q)), some (.arr xs) =>
      if q = 1 then xs.filter isValidShape else []
    | _, _ => []

/-- The envelope built by `saveDrawings` from `drawing/storage.ts`:
`{ version: 1, savedAt: Date.now(), shapes }`. -/
def saveEnvelope (shapes : List JVal) (savedAt : ℚ) : JVal :=
  .obj [("version", .num (.finite 1)), ("savedAt", .num (.finite savedAt)),
        ("shapes", .arr shapes)]

mutual
/-- The effect of `JSON.parse ∘ JSON.stringify` on a value:
structure-preserving, except that the non-finite numbers `NaN` and
`±Infinity` serialize as `null`. -/
def jsonRoundTrip : JVal → JVal
  | .null => .null
  | .bool b => .bool b
  | .num (.finite q) => .num (.finite q)
  | .num .nan => .null
  | .num .posInf => .null
  | .num .negInf => .null
  | .str s => .str s
  | .arr xs => .arr (jsonRoundTripList xs)
  | .obj fs => .obj (jsonRoundTripFields fs)

/-- `jsonRoundTrip` mapped over an array's elements. -/
def jsonRoundTripList : List JVal → List JVal
  | [] => []
  | x :: xs => jsonRoundTrip x :: jsonRoundTripList xs

/-- `jsonRoundTrip` mapped over an object's field values. -/
def jsonRoundTripFields : List (String × JVal) → List (String × JVal)
  | [] => []
  | (k, v) :: fs => (k, jsonRoundTrip v) :: jsonRoundTripFields fs
end

/-- `loadDrawings()` run right after `saveDrawings(shapes)`: the envelope
goes through `JSON.stringify` into localStorage and back through
`JSON.parse`. -/
def saveThenLoad (shapes : List JVal) (savedAt : ℚ) : List JVal :=
  loadDrawings (.parsed (jsonRoundTrip (saveEnvelope shapes savedAt)))

/-! ### Typed shape model (`drawing/types.ts`) -/

/-- `Point` from `drawing/types.ts`: `{time, price}` in domain space. -/
structure Point where
  time : ℚ
  price : ℚ
deriving DecidableEq, Repr

/-- `UserShape` from `drawing/types.ts`: the tagged union of Level,
Trendline and Zone, each with `id`, `createdAt` and optional `label`. -/
inductive UserShape where
  | level (id : String) (createdAt : ℚ) (label : Option String) (price : ℚ)
  | trendline (id : String) (createdAt : ℚ) (label : Option String) (a b : Point)
  | zone (id : String) (createdAt : ℚ) (label : Option String) (a b : Point)
deriving DecidableEq, Repr

/-- The `id` field of a `UserShape`. -/
def UserShape.id : UserShape → String
  | .level i _ _ _ => i
  | .trendline i _ _ _ _ => i
  | .zone i _ _ _ _ => i

/-- The `kind` discriminant string of a `UserShape`. -/
def UserShape.kind : UserShape → String
  | .level _ _ _ _ => "level"
  | .trendline _ _ _ _ _ => "trendline"
  | .zone _ _ _ _ _ => "zone"

/-- The `createdAt` field of a `UserShape`. -/
def UserShape.createdAt : UserShape → ℚ
  | .level _ c _ _ => c
  | .trendline _ c _ _ _ => c
  | .zone _ c _ _ _ => c

/-- The `label` field of a `UserShape`. -/
def UserShape.label : UserShape → Option String
  | .level _ _ l _ => l
  | .trendline _ _ l _ _ => l
  | .zone _ _ l _ _ => l

/-! ### Coordinate bridge and tools (`drawing/tools.ts`) -/

/-- A pixel-space pointer position. -/
structure Pointer where
  x : ℚ
  y : ℚ
deriving DecidableEq, Repr

/-- `ToolContext` from `drawing/tools.ts`: the coordinate bridge; each
conversion returns `none` when the input is outside the valid domain. -/
structure ToolContext where
  xToTime : ℚ → Option ℚ
  yToPrice : ℚ → Option ℚ
  timeToX : ℚ → Option ℚ
  priceToY : ℚ → Option ℚ

/-- `toPoint` from `drawing/tools.ts`: convert a pointer to a domain
point, failing if either coordinate conversion fails. -/
def toPoint (ctx : ToolContext) (p : Pointer) : Option Point :=
  match ctx.xToTime p.x, ctx.yToPrice p.y with
  | some time, some price => some ⟨time, price⟩
  | _, _ => none

/-- The squared pixel distance from a point to the finite segment
`(ax,ay)-(bx,byv)`, with the projection parameter clamped to `[0,1]`
(`distPointToSegment` in `drawing/tools.ts` returns the square root of
this; comparisons against the threshold 8 are phrased on squares, using
`√e ≤ 8 ↔ e ≤ 64` for `e ≥ 0`). -/
def distSqPointToSegment (px py ax ay bx byv : ℚ) : ℚ :=
  let abx := bx - ax
  let aby := byv - ay
  let apx := px - ax
  let apy := py - ay
  let denom := abx * abx + aby * aby
  let t := if denom = 0 then 0 else max 0 (min 1 ((apx * abx + apy * aby) / denom))
  let cx := ax + t * abx
  let cy := ay + t * aby
  (px - cx) * (px - cx) + (py - cy) * (py - cy)

/-- One shape's hit test against a pointer (the per-kind branches of
`hitTest` in `drawing/tools.ts`; a failed coordinate conversion means
`continue`, i.e. no hit). The pixel threshold is 8. -/
def shapeHit (ctx : ToolContext) (p : Pointer) : UserShape → Bool
  | .level _ _ _ price =>
    match ctx.priceToY price with
    | none => false
    | some y => |p.y - y| ≤ 8
  | .trendline _ _ _ a b =>
    match ctx.timeToX a.time, ctx.priceToY a.price,
          ctx.timeToX b.time, ctx.priceToY b.price with
    | some ax, some ay, some bx, some byv =>
      distSqPointToSegment p.x p.y ax ay bx byv ≤ 64
    | _, _, _, _ => false
  | .zone _ _ _ a b =>
    match ctx.timeToX (min a.time b.time), ctx.timeToX (max a.time b.time),
          ctx.priceToY (min a.price b.price), ctx.priceToY (max a.price b.price) with
    | some x1, some x2, some y1, some y2 =>
      let left := min x1 x2
      let right := max x1 x2
      let top := min y1 y2
      let bottom := max y1 y2
      left ≤ p.x && p.x ≤ right && top ≤ p.y && p.y ≤ bottom
    | _, _, _, _ => false

/-- `hitTest` from `drawing/tools.ts`: scan shapes topmost-first (reverse
creation order) and return the id of the first hit. -/
def hitTest (shapes : List UserShape) (ctx : ToolContext) (p : Pointer) :
    Option String :=
  (shapes.reverse.find? (shapeHit ctx p)).map UserShape.id

/-! ### Interaction state machine (`components/ChartBoard.tsx`) -/

/-- The two shape tools that open a drawing gesture. -/
inductive DrawTool where
  | trendline
  | zone
deriving DecidableEq, Repr

/-- `InteractionState` from `ChartBoard.tsx`: `{mode:'none'}`,
`{mode:'drawing', tool, start}` or `{mode:'dragging', id, start, original}`.
The `'none'` mode is named `idle` here. -/
inductive InteractionState where
  | idle
  | drawing (tool : DrawTool) (start : Pointer)
  | dragging (id : String) (start : Pointer) (original : UserShape)
deriving DecidableEq, Repr

/-- `EngineShape` from `drawing/types.ts`: read-only shapes derived from a
server annotation payload (the randomly generated `id` and the `createdAt`
stamp play no role in any claim and are not modelled). -/
inductive EngineShape where
  | level (price : ℚ) (label : Option String)
  | zone (a b : Point) (label : Option String) (gold : Bool)
deriving DecidableEq, Repr

/-- The ChartBoard state touched by the pointer handlers and the toolbar:
`userShapes`, `engineShapes`, `draftShape`, `selectedId` and the
interaction ref. -/
structure BoardState where
  userShapes : List UserShape
  engineShapes : List EngineShape
  draft : Option UserShape
  selected : Option String
  interaction : InteractionState
deriving DecidableEq, Repr

/-- The translated copy of the drag's original snapshot: the body of the
`setUserShapes` updater in `onPointerMove` (dragging branch) for the
matching id — spread of the original with only the geometric fields
shifted by the domain delta `(dt, dp)`. -/
def dragTranslate (o : UserShape) (dt dp : ℚ) : UserShape :=
  match o with
  | .level i c l price => .level i c l (price + dp)
  | .trendline i c l a b =>
    .trendline i c l ⟨a.time + dt, a.price + dp⟩ ⟨b.time + dt, b.price + dp⟩
  | .zone i c l a b =>
    .zone i c l ⟨a.time + dt, a.price + dp⟩ ⟨b.time + dt, b.price + dp⟩

/-- The store update performed by one dragging `onPointerMove`: every
shape whose id differs from the dragged id is returned unchanged; the
dragged shape is replaced by the translated original snapshot. -/
def dragStep (orig : UserShape) (sid : String) (shapes : List UserShape)
    (dt dp : ℚ) : List UserShape :=
  shapes.map fun s => if s.id = sid then dragTranslate orig dt dp else s

/-- Update the draft's endpoint `b` (the `setDraftShape` updater in the
drawing branch of `onPointerMove`; a Level draft is returned unchanged). -/
def draftWithB (d : UserShape) (pt : Point) : UserShape :=
  match d with
  | .trendline i c l a _ => .trendline i c l a pt
  | .zone i c l a _ => .zone i c l a pt
  | .level i c l price => .level i c l price

/-- `onPointerMove` from `ChartBoard.tsx` (state update only): in
`drawing` mode a valid pointer updates the draft's `b`; in `dragging`
mode valid anchor/pointer conversions rewrite the store from the
original snapshot; any failed conversion returns with no change. -/
def onPointerMove (ctx : ToolContext) (st : BoardState) (p : Pointer) :
    BoardState :=
  match st.interaction with
  | .idle => st
  | .drawing _ _ =>
    match toPoint ctx p with
    | none => st
    | some pt => { st with draft := st.draft.map (fun d => draftWithB d pt) }
  | .dragging sid start orig =>
    match toPoint ctx start, toPoint ctx p with
    | some startPt, some nowPt =>
      let dt := nowPt.time - startPt.time
      let dp := nowPt.price - startPt.price
      { st with userShapes := dragStep orig sid st.userShapes dt dp }
    | _, _ => st

/-- `onPointerUp` from `ChartBoard.tsx` (state update only): in `drawing`
mode a valid end point finalizes the draft's `b`, commits it to the store
and selects it; an invalid end point discards the draft; either way the
interaction returns to `'none'`.  In every other mode the interaction is
simply reset to `'none'`. -/
def onPointerUp (ctx : ToolContext) (st : BoardState) (p : Pointer) :
    BoardState :=
  match st.interaction with
  | .drawing _ _ =>
    match toPoint ctx p with
    | none => { st with draft := none, interaction := .idle }
    | some endPoint =>
      match st.draft with
      | none => { st with draft := none, interaction := .idle }
      | some d =>
        let finalized := draftWithB d endPoint
        { st with draft := none,
                  userShapes := st.userShapes ++ [finalized],
                  selected := some finalized.id,
                  interaction := .idle }
  | _ => { st with interaction := .idle }

/-- `prev.slice(0, -1)`: drop the last element of a JavaScript array. -/
def sliceDropLast (xs : List UserShape) : List UserShape :=
  xs.take (xs.length - 1)

/-- `undo` from `ChartBoard.tsx`: drop the most recent user shape and
clear the selection; nothing else is touched. -/
def undo (st : BoardState) : BoardState :=
  { st with userShapes := sliceDropLast st.userShapes, selected := none }

/-- A sequence of pointer-move events, each seen through the coordinate
bridge current at that moment. -/
def processMoves (st : BoardState) (moves : List (ToolContext × Pointer)) :
    BoardState :=
  moves.foldl (fun s cp => onPointerMove cp.1 s cp.2) st

/-! ### Live data feed (`ChartBoard.tsx`: `fetchData`, `ws.onmessage`) -/

/-- A candle `{time, open, high, low, close}` (field names shortened to
avoid clashing with Lean keywords). -/
structure Candle where
  time : ℚ
  openP : ℚ
  highP : ℚ
  lowP : ℚ
  closeP : ℚ
deriving DecidableEq, Repr

/-- The time normalization applied in `ws.onmessage` (and, for numeric
input, in `fetchData`): `if (t > 2000000000) t = t / 1000` — a plain
division, with no rounding. -/
def wsNormalizeTime (t : ℚ) : ℚ :=
  if t > 2000000000 then t / 1000 else t

/-- The candle-buffer merge in `ws.onmessage`: overwrite the last
buffered candle in place when its time equals the incoming time,
otherwise append. -/
def mergeCandle (buf : List Candle) (c : Candle) : List Candle :=
  match buf.getLast? with
  | some last => if last.time = c.time then buf.dropLast ++ [c] else buf ++ [c]
  | none => buf ++ [c]

/-- The buffer effect of one `ws.onmessage`: normalize the incoming time,
then merge the candle into the buffer. -/
def wsOnMessage (buf : List Candle) (d : Candle) : List Candle :=
  mergeCandle buf { d with time := wsNormalizeTime d.time }

/-! ### Engine annotation adapter (`ChartBoard.tsx`: `buildEngineShapes`) -/

/-- One entry of the payload's `levels` array (`{price, label?}`); the
price is an arbitrary JavaScript number. -/
structure EngineLevelRaw where
  price : JSNum
  label : Option String
deriving DecidableEq, Repr

/-- One entry of the payload's `zones`/`fiboZones` arrays
(`{priceFrom, priceTo, label?}`). -/
structure EngineZoneRaw where
  priceFrom : JSNum
  priceTo : JSNum
  label : Option String
deriving DecidableEq, Repr

/-- The annotation payload (`EngineAnnotations`); absent arrays are the
empty list, mirroring `annotationsJson.levels || []`. -/
structure EngineAnnotations where
  levels : List EngineLevelRaw
  zones : List EngineZoneRaw
  fiboZones : List EngineZoneRaw
deriving DecidableEq, Repr

/-- The left horizontal anchor `t1` of `buildEngineShapes`:
`data.at(0)?.time ? Number(data.at(0)!.time) : nowSec() - 3600`.
JavaScript truthiness: the fallback fires when there is no candle, and
also when the first candle's time is the falsy number `0`. -/
def anchorT1 (data : List Candle) (now : ℚ) : ℚ :=
  match data.head? with
  | some c0 => if c0.time = 0 then now - 3600 else c0.time
  | none => now - 3600

/-- The right horizontal anchor `t2` of `buildEngineShapes`:
`data.at(-1)?.time ? Number(data.at(-1)!.time) : nowSec()`. -/
def anchorT2 (data : List Candle) (now : ℚ) : ℚ :=
  match data.getLast? with
  | some cl => if cl.time = 0 then now else cl.time
  | none => now

/-- `buildEngineShapes` from `ChartBoard.tsx`: one gold Level per
finite-priced `levels` entry, one green Zone per finite `zones` entry and
one gold Zone per finite `fiboZones` entry, pushed in that order; zones
are anchored horizontally on `[t1, t2]`; entries failing the finiteness
checks are skipped with `continue`. -/
def buildEngineShapes (data : List Candle) (now : ℚ)
    (ann : EngineAnnotations) : List EngineShape :=
  let t1 := anchorT1 data now
  let t2 := anchorT2 data now
  (ann.levels.filterMap fun lvl =>
    match lvl.price with
    | .finite q => some (.level q lvl.label)
    | _ => none) ++
  (ann.zones.filterMap fun z =>
    match z.priceFrom, z.priceTo with
    | .finite p1, .finite p2 =>
      some (.zone ⟨t1, p1⟩ ⟨t2, p2⟩ z.label false)
    | _, _ => none) ++
  (ann.fiboZones.filterMap fun z =>
    match z.priceFrom, z.priceTo with
    | .finite p1, .finite p2 =>
      some (.zone ⟨t1, p1⟩ ⟨t2, p2⟩ z.label true)
    | _, _ => none)

/-! ### Overlay renderer geometry (`drawing/renderer.ts`) -/

/-- The stroked segment issued by `drawTrendline`: `moveTo(ax, ay)`,
`lineTo(bx, byv)` — the endpoints are used exactly as given. -/
structure Segment where
  ax : ℚ
  ay : ℚ
  bx : ℚ
  byv : ℚ
deriving DecidableEq, Repr

/-- `drawTrendline` from `drawing/renderer.ts` (geometry only). -/
def drawTrendline (ax ay bx byv : ℚ) : Segment :=
  ⟨ax, ay, bx, byv⟩

/-- The pixel extent of a segment: the larger of its horizontal and
vertical spans. -/
def segExtent (s : Segment) : ℚ :=
  max |s.bx - s.ax| |s.byv - s.ay|

/-- The rectangle issued by `drawZone`. -/
structure ZoneRect where
  left : ℚ
  top : ℚ
  w : ℚ
  h : ℚ
deriving DecidableEq, Repr

/-- `drawZone` from `drawing/renderer.ts` (geometry only): normalize the
corners and clamp width and height to at least 1 pixel. -/
def drawZone (x1 y1 x2 y2 : ℚ) : ZoneRect :=
  let left := min x1 x2
  let right := max x1 x2
  let top := min y1 y2
  let bottom := max y1 y2
  ⟨left, top, max 1 (right - left), max 1 (bottom - top)⟩

/-! ### Concrete fixtures used by theorems and witnesses -/

/-- A coordinate bridge whose only defined conversion is
`priceToY 100 = 50` (the fixture of spec property 4). -/
def ctx100 : ToolContext :=
  ⟨fun _ => none, fun _ => none, fun _ => none,
   fun q => if q = 100 then some 50 else none⟩

/-- A Level shape at price 100. -/
def lvl100 : UserShape := .level "L" 0 none 100

/-- A coordinate bridge that fails every conversion (pointer entirely
outside the valid domain). -/
def ctxNone : ToolContext :=
  ⟨fun _ => none, fun _ => none, fun _ => none, fun _ => none⟩

/-- The identity coordinate bridge (every pixel maps to the equal-valued
domain coordinate). -/
def ctxId : ToolContext :=
  ⟨fun x => some x, fun y => some y, fun x => some x, fun y => some y⟩

/-- A board state in the middle of a trendline drawing gesture, with a
live draft. -/
def stDrawing : BoardState :=
  { userShapes := [],
    engineShapes := [],
    draft := some (.trendline "d1" 0 none ⟨0, 0⟩ ⟨1, 1⟩),
    selected := none,
    interaction := .drawing .trendline ⟨0, 0⟩ }

/-- A stored trendline entry whose `a.time` is `NaN`: it passes
`isValidShape` (endpoint coordinates are only checked with
`typeof === 'number'`), but `JSON.stringify` serializes the `NaN` as
`null`. -/
def badTl : JVal :=
  .obj [("kind", .str "trendline"), ("id", .str "t1"),
        ("createdAt", .num (.finite 0)),
        ("a", .obj [("time", .num .nan), ("price", .num (.finite 1))]),
        ("b", .obj [("time", .num (.finite 2)), ("price", .num (.finite 3))])]

/-- A structurally valid stored Level entry. -/
def goodLevel : JVal :=
  .obj [("kind", .str "level"), ("id", .str "l1"),
        ("createdAt", .num (.finite 0)), ("price", .num (.finite 5))]

/-- A stored trendline entry whose `b` endpoint is missing its `price`
field. -/
def tlMissingBPrice : JVal :=
  .obj [("kind", .str "trendline"), ("id", .str "t2"),
        ("createdAt", .num (.finite 0)),
        ("a", .obj [("time", .num (.finite 1)), ("price", .num (.finite 1))]),
        ("b", .obj [("time", .num (.finite 2))])]

/-- Discriminates the Level engine shapes. -/
def EngineShape.isLevelShape : EngineShape → Bool
  | .level _ _ => true
  | _ => false

/-- Discriminates the Zone engine shapes. -/
def EngineShape.isZoneShape : EngineShape → Bool
  | .zone _ _ _ _ => true
  | _ => false

/-- The candle buffer of the concrete C4 example: times spanning
`[1000, 2000]`. -/
def c4data : List Candle :=
  [⟨1000, 1, 1, 1, 1⟩, ⟨1500, 1, 1, 1, 1⟩, ⟨2000, 1, 1, 1, 1⟩]

/-- The annotation payload of the concrete C4 example:
`{levels:[{price:1.2345}], zones:[{priceFrom:1.0, priceTo:1.1}]}`. -/
def c4ann : EngineAnnotations :=
  ⟨[⟨.finite (2469 / 2000), none⟩], [⟨.finite 1, .finite (11 / 10), none⟩], []⟩

/-- The original snapshot of a zone being dragged in the concrete drag
scenario. -/
def zOrig : UserShape := .zone "z" 0 none ⟨1, 2⟩ ⟨3, 4⟩

/-- A board state in the middle of dragging `zOrig`, anchored at pixel
`(0, 0)`. -/
def dragSt : BoardState :=
  { userShapes := [zOrig],
    engineShapes := [],
    draft := none,
    selected := some "z",
    interaction := .dragging "z" ⟨0, 0⟩ zOrig }

/-! ## Helper lemmas -/

/-- `dragTranslate` never changes the shape's id. -/
lemma dragTranslate_id (o : UserShape) (dt dp : ℚ) :
    (dragTranslate o dt dp).id = o.id := by
  cases o <;> rfl

/-- A later drag step overwrites an earlier one: each step rewrites the
dragged shape from the original snapshot, so only the last delta
matters. -/
lemma dragStep_last_wins (orig : UserShape) (sid : String)
    (hid : orig.id = sid) (l : List UserShape) (d1 e1 d2 e2 : ℚ) :
    dragStep orig sid (dragStep orig sid l d1 e1) d2 e2 =
      dragStep orig sid l d2 e2 := by
  simp only [dragStep, List.map_map]
  refine List.map_congr_left ?_
  intro a _
  by_cases h : a.id = sid
  · simp [Function.comp, h, dragTranslate_id, hid]
  · simp [Function.comp, h]

/-- A dragging-mode pointer move leaves everything except `userShapes`
alone, and the store either unchanged (invalid coordinates) or rewritten
by one `dragStep`. -/
lemma onPointerMove_dragging (ctx : ToolContext) (st : BoardState)
    (p : Pointer) (sid : String) (start : Pointer) (orig : UserShape)
    (h : st.interaction = .dragging sid start orig) :
    (onPointerMove ctx st p).interaction = st.interaction ∧
    (onPointerMove ctx st p).draft = st.draft ∧
    (onPointerMove ctx st p).selected = st.selected ∧
    (onPointerMove ctx st p).engineShapes = st.engineShapes ∧
    ((onPointerMove ctx st p).userShapes = st.userShapes ∨
      ∃ d e, (onPointerMove ctx st p).userShapes =
        dragStep orig sid st.userShapes d e) := by
  simp only [onPointerMove, h]
  cases h1 : toPoint ctx start with
  | none => cases h2 : toPoint ctx p <;> simp [h]
  | some sp =>
    cases h2 : toPoint ctx p with
    | none => simp [h]
    | some np =>
      exact ⟨rfl, rfl, rfl, rfl,
        Or.inr ⟨np.time - sp.time, np.price - sp.price, rfl⟩⟩

/-- Over any sequence of pointer moves made while dragging, the
interaction state is preserved and the final store is a function of the
original store and the *last* applied delta only. -/
lemma processMoves_dragging_inv (sid : String) (start : Pointer)
    (orig : UserShape) (hid : orig.id = sid) :
    ∀ (ms : List (ToolContext × Pointer)) (st : BoardState),
      st.interaction = .dragging sid start orig →
      (processMoves st ms).interaction = .dragging sid start orig ∧
      (∀ d e, dragStep orig sid (processMoves st ms).userShapes d e =
        dragStep orig sid st.userShapes d e) := by
  intro ms
  induction ms with
  | nil => intro st h; exact ⟨h, fun d e => rfl⟩
  | cons cp rest ih =>
    intro st h
    have hstep := onPointerMove_dragging cp.1 st cp.2 sid start orig h
    have hrec : processMoves st (cp :: rest) =
        processMoves (onPointerMove cp.1 st cp.2) rest := by
      simp [processMoves]
    have hint : (onPointerMove cp.1 st cp.2).interaction =
        .dragging sid start orig := by rw [hstep.1, h]
    obtain ⟨h1, h2⟩ := ih (onPointerMove cp.1 st cp.2) hint
    rw [hrec]
    refine ⟨h1, fun d e => ?_⟩
    rw [h2 d e]
    rcases hstep.2.2.2.2 with hsame | ⟨d1, e1, hdrag⟩
    · rw [hsame]
    · rw [hdrag, dragStep_last_wins orig sid hid]

/-- `jsonRoundTripList` is the identity on lists of values individually
fixed by `jsonRoundTrip`. -/
lemma jsonRoundTripList_eq_self (S : List JVal)
    (h : ∀ v ∈ S, jsonRoundTrip v = v) : jsonRoundTripList S = S := by
  induction S with
  | nil => rfl
  | cons x xs ih =>
    simp only [jsonRoundTripList]
    rw [h x (by simp), ih (fun v hv => h v (by simp [hv]))]

/-- Filtering a `filterMap` whose produced values all satisfy the
predicate changes nothing. -/
lemma filter_filterMap_all {α β} (f : α → Option β) (p : β → Bool)
    (l : List α) (h : ∀ a b, f a = some b → p b = true) :
    (l.filterMap f).filter p = l.filterMap f := by
  refine List.filter_eq_self.mpr ?_
  intro b hb
  rcases List.mem_filterMap.mp hb with ⟨a, _, hf⟩
  exact h a b hf

/-- Filtering a `filterMap` none of whose produced values satisfy the
predicate leaves nothing. -/
lemma filter_filterMap_none {α β} (f : α → Option β) (p : β → Bool)
    (l : List α) (h : ∀ a b, f a = some b → p b = false) :
    (l.filterMap f).filter p = [] := by
  refine List.filter_eq_nil_iff.mpr ?_
  intro b hb
  rcases List.mem_filterMap.mp hb with ⟨a, _, hf⟩
  simp [h a b hf]

/-! ## Claims -/

/-- **C3 counterexample** — the claim states that a live update with
`time = 1700000000500` normalizes to exactly `1700000000`; the code's
normalization is a plain division by 1000, which yields `1700000000.5`. -/
theorem wsNormalizeTime_millis_cex :
    wsNormalizeTime 1700000000500 = 3400000001 / 2 ∧
    wsNormalizeTime 1700000000500 ≠ 1700000000 := by
  constructor
  · norm_num [wsNormalizeTime]
  · norm_num [wsNormalizeTime]

/-- **C3 (amended)** — every incoming numeric candle time strictly above
2×10⁹ is treated as milliseconds and divided by 1000 (with no rounding)
before the candle is merged into the buffer; times not above the
threshold pass through unchanged.  In particular `1700000000500`
normalizes to `1700000000.5`, and the merged candle carries the
normalized time (replacing the last buffered candle when times match,
appending otherwise). -/
theorem wsNormalizeTime_divides_without_rounding :
    (∀ t : ℚ, t > 2000000000 → wsNormalizeTime t = t / 1000) ∧
    (∀ t : ℚ, ¬ t > 2000000000 → wsNormalizeTime t = t) ∧
    wsNormalizeTime 1700000000500 = 3400000001 / 2 ∧
    (∀ buf d, wsOnMessage buf d =
      mergeCandle buf { d with time := wsNormalizeTime d.time }) ∧
    (∀ buf last d, buf.getLast? = some last →
      last.time = wsNormalizeTime d.time →
      wsOnMessage buf d =
        buf.dropLast ++ [{ d with time := wsNormalizeTime d.time }]) ∧
    (∀ buf last d, buf.getLast? = some last →
      last.time ≠ wsNormalizeTime d.time →
      wsOnMessage buf d = buf ++ [{ d with time := wsNormalizeTime d.time }]) := by
  refine ⟨fun t ht => ?_, fun t ht => ?_, by norm_num [wsNormalizeTime],
    fun buf d => rfl, fun buf last d hl ht => ?_, fun buf last d hl ht => ?_⟩
  · simp [wsNormalizeTime, ht]
  · simp [wsNormalizeTime, ht]
  · simp [wsOnMessage, mergeCandle, hl, ht]
  · simp [wsOnMessage, mergeCandle, hl, ht]

/-- **C3 witness** — the amended theorem applied at concrete inputs:
`2000000001000` is divided by 1000, `5` passes through, and a live
update replaces a matching last candle. -/
theorem wsNormalizeTime_divides_witness :
    wsNormalizeTime 2000000001000 = 2000000001000 / 1000 ∧
    wsNormalizeTime 5 = 5 ∧
    wsOnMessage [⟨7, 1, 1, 1, 1⟩] ⟨7, 2, 3, 4, 5⟩ = [⟨7, 2, 3, 4, 5⟩] :=
  ⟨wsNormalizeTime_divides_without_rounding.1 2000000001000 (by norm_num),
   wsNormalizeTime_divides_without_rounding.2.1 5 (by norm_num),
   by
    have h := wsNormalizeTime_divides_without_rounding.2.2.2.2.1
      [⟨7, 1, 1, 1, 1⟩] ⟨7, 1, 1, 1, 1⟩ ⟨7, 2, 3, 4, 5⟩ rfl (by norm_num [wsNormalizeTime])
    simpa [wsNormalizeTime] using h⟩

/-- **C7 counterexample** — the claim states that a degenerate
(zero-length) Trendline is drawn with geometry clamped to a minimum
1-pixel extent; `drawTrendline` applies no clamping, so the segment drawn
for coincident endpoints `(5,5)-(5,5)` has pixel extent 0, not ≥ 1. -/
theorem degenerate_trendline_not_clamped_cex :
    segExtent (drawTrendline 5 5 5 5) = 0 ∧
    ¬ (1 ≤ segExtent (drawTrendline 5 5 5 5)) := by
  constructor
  · norm_num [segExtent, drawTrendline]
  · norm_num [segExtent, drawTrendline]

/-- **C7 (amended)** — degenerate Zones are clamped: every rectangle
issued by `drawZone` has width and height at least 1 pixel.  Trendlines
are not clamped: `drawTrendline` strokes exactly the given endpoints, so
a zero-length trendline is drawn with pixel extent 0 (and, with butt line
caps, vanishes). -/
theorem zone_clamped_trendline_unclamped :
    (∀ x1 y1 x2 y2 : ℚ,
      1 ≤ (drawZone x1 y1 x2 y2).w ∧ 1 ≤ (drawZone x1 y1 x2 y2).h) ∧
    (∀ ax ay bx byv : ℚ, drawTrendline ax ay bx byv = ⟨ax, ay, bx, byv⟩) ∧
    segExtent (drawTrendline 5 5 5 5) = 0 := by
  refine ⟨fun x1 y1 x2 y2 => ⟨?_, ?_⟩, fun ax ay bx byv => rfl,
    by norm_num [segExtent, drawTrendline]⟩
  · exact le_max_left _ _
  · exact le_max_left _ _

/-- **C9** — a Level at price `P` with `priceToY P = some Y` is hit
exactly when `|pointerY − Y| ≤ 8`; with `priceToY 100 = 50`, a Level at
price 100 is hit for every pointer `y ∈ [42, 58]` and missed at
`y = 70`. -/
theorem level_hit_iff_within_8px :
    (∀ (ctx : ToolContext) (p : Pointer) (i : String) (c : ℚ)
       (l : Option String) (price Y : ℚ), ctx.priceToY price = some Y →
      (hitTest [.level i c l price] ctx p = some i ↔ |p.y - Y| ≤ 8)) ∧
    (∀ x y : ℚ, 42 ≤ y → y ≤ 58 → hitTest [lvl100] ctx100 ⟨x, y⟩ = some "L") ∧
    (∀ x : ℚ, hitTest [lvl100] ctx100 ⟨x, 70⟩ = none) := by
  have hone : ∀ (ctx : ToolContext) (p : Pointer) (i : String) (c : ℚ)
      (l : Option String) (price Y : ℚ), ctx.priceToY price = some Y →
      (hitTest [.level i c l price] ctx p = some i ↔ |p.y - Y| ≤ 8) := by
    intro ctx p i c l price Y h
    simp only [hitTest, List.reverse_singleton, List.find?, shapeHit, h]
    by_cases hd : |p.y - Y| ≤ 8
    · simp [hd, UserShape.id]
    · simp [hd]
  refine ⟨hone, fun x y h1 h2 => ?_, fun x => ?_⟩
  · have h50 : ctx100.priceToY (100 : ℚ) = some 50 := by norm_num [ctx100]
    exact (hone ctx100 ⟨x, y⟩ "L" 0 none 100 50 h50).2 (by
      rw [abs_le]; constructor <;> simp <;> linarith)
  · have h50 : ctx100.priceToY (100 : ℚ) = some 50 := by norm_num [ctx100]
    simp only [hitTest, List.reverse_singleton, List.find?, lvl100, shapeHit, h50]
    norm_num

/-- **C9 witness** — the general part of the theorem applied at a
concrete bridge and pointer: with `priceToY 100 = some 50` and
`pointerY = 45`, the Level is hit. -/
theorem level_hit_iff_within_8px_witness :
    hitTest [lvl100] ctx100 ⟨0, 45⟩ = some "L" :=
  (level_hit_iff_within_8px.1 ctx100 ⟨0, 45⟩ "L" 0 none 100 50
    (by norm_num [ctx100])).2 (by norm_num)

/-- **C8** — with at least one committed user shape, `undo` removes
exactly the most recently committed (last) user shape, leaves the earlier
shapes unchanged, and leaves the engine shape set (and the draft)
entirely untouched. -/
theorem undo_removes_last_user_shape :
    ∀ (st : BoardState) (xs : List UserShape) (s : UserShape),
      st.userShapes = xs ++ [s] →
      (undo st).userShapes = xs ∧
      (undo st).engineShapes = st.engineShapes ∧
      (undo st).draft = st.draft := by
  intro st xs s h
  refine ⟨?_, rfl, rfl⟩
  simp only [undo, sliceDropLast, h, List.length_append, List.length_singleton,
    Nat.add_sub_cancel]
  exact List.take_left xs [s]

/-- **C2 counterexample** — the round-trip law fails as stated: a
trendline whose `a.time` is `NaN` passes the store's structural
validation, yet `JSON.stringify` turns the `NaN` into `null`, so
`loadDrawings` after `saveDrawings` drops the entry instead of returning
it. -/
theorem save_load_roundtrip_cex :
    isValidShape badTl = true ∧
    saveThenLoad [badTl] 0 = [] ∧
    saveThenLoad [badTl] 0 ≠ [badTl] := by
  refine ⟨rfl, rfl, fun h => ?_⟩
  rw [show saveThenLoad [badTl] 0 = [] from rfl] at h
  exact (List.cons_ne_nil badTl []) h.symm

/-- **C2 (amended)** — `loadDrawings` after `saveDrawings S` returns `S`
for every list `S` whose entries pass the store's structural validation
*and* are preserved by JSON serialization (no `NaN`/`Infinity` leaves,
which `JSON.stringify` would turn into `null`). -/
theorem save_load_roundtrip :
    ∀ (S : List JVal) (savedAt : ℚ),
      (∀ v ∈ S, isValidShape v = true) →
      (∀ v ∈ S, jsonRoundTrip v = v) →
      saveThenLoad S savedAt = S := by
  intro S savedAt hvalid hser
  have henv : jsonRoundTrip (saveEnvelope S savedAt) =
      saveEnvelope (jsonRoundTripList S) savedAt := rfl
  simp only [saveThenLoad, henv, jsonRoundTripList_eq_self S hser]
  simp only [loadDrawings, saveEnvelope, isObject, getField, lookupField]
  norm_num
  exact List.filter_eq_self.mpr hvalid

/-- **C2 witness** — the amended theorem applied to a concrete singleton
list holding one valid Level. -/
theorem save_load_roundtrip_witness :
    saveThenLoad [goodLevel] 3 = [goodLevel] :=
  save_load_roundtrip [goodLevel] 3
    (by intro v hv; simp at hv; subst hv; rfl)
    (by intro v hv; simp at hv; subst hv; rfl)

/-- **C6** — `loadDrawings` returns exactly the structurally valid
entries of a `version === 1` envelope whose `shapes` is an array, and the
empty list in every other case (absent item, parse failure, wrong
version, non-array `shapes`), never signaling an error; an entry lacking
`id` or `createdAt`, or a Level without a finite `price`, is dropped —
and the concrete payload holding one valid Level and one Trendline
missing `b.price` loads as just the Level. -/
theorem load_filters_invalid_entries :
    loadDrawings .absent = [] ∧
    loadDrawings .unparsable = [] ∧
    (∀ (v : JVal) (xs : List JVal), isObject v = true →
      getField v "version" = some (.num (.finite 1)) →
      getField v "shapes" = some (.arr xs) →
      loadDrawings (.parsed v) = xs.filter isValidShape) ∧
    (∀ v : JVal, getField v "version" ≠ some (.num (.finite 1)) →
      loadDrawings (.parsed v) = []) ∧
    (∀ v : JVal, (∀ xs, getField v "shapes" ≠ some (.arr xs)) →
      loadDrawings (.parsed v) = []) ∧
    (∀ e : JVal, getField e "id" = none → isValidShape e = false) ∧
    (∀ e : JVal, getField e "createdAt" = none → isValidShape e = false) ∧
    (∀ e : JVal, getField e "kind" = some (.str "level") →
      isFiniteNumberVal (getField e "price") = false →
      isValidShape e = false) ∧
    loadDrawings (.parsed (saveEnvelope [goodLevel, tlMissingBPrice] 7)) =
      [goodLevel] := by
  refine ⟨rfl, rfl, ?_, ?_, ?_, ?_, ?_, ?_, rfl⟩
  · intro v xs hobj hv hs
    simp [loadDrawings, hobj, hv, hs]
  · intro v h
    simp only [loadDrawings]
    split
    · rfl
    · split
      · next q xs hv _ =>
        have hq : q ≠ 1 := fun hq1 => h (by rw [hv, hq1])
        simp [hq]
      · rfl
  · intro v h
    simp only [loadDrawings]
    split
    · rfl
    · split
      · next q xs _ hs => exact absurd hs (h xs)
      · rfl
  · intro e h
    simp only [isValidShape, h]
    split
    · rfl
    · split
      · split
        · simp [isStringVal]
        · rfl
      · rfl
  · intro e h
    simp only [isValidShape, h]
    split
    · rfl
    · split
      · split
        · simp [isNumberVal]
        · rfl
      · rfl
  · intro e hk hp
    simp only [isValidShape, hk]
    split
    · rfl
    · simp [hp]

/-- **C6 witness** — the theorem applied at concrete payloads: a valid
one-Level envelope loads back its shape list, and an envelope with
`version = 2` loads as empty. -/
theorem load_filters_invalid_entries_witness :
    loadDrawings (.parsed (saveEnvelope [goodLevel] 3)) = [goodLevel] ∧
    loadDrawings (.parsed (.obj [("version", .num (.finite 2)),
      ("shapes", .arr [])])) = [] := by
  constructor
  · have h := load_filters_invalid_entries.2.2.1
      (saveEnvelope [goodLevel] 3) [goodLevel] rfl rfl rfl
    rw [h]
    exact rfl
  · refine load_filters_invalid_entries.2.2.2.1 _ ?_
    intro h
    simp [getField, lookupField] at h

/-- **C8 witness** — the theorem applied to a concrete two-shape store
with one engine shape: undo drops the most recent shape only. -/
theorem undo_removes_last_user_shape_witness :
    (undo { userShapes := [.level "a" 0 none 1, lvl100],
            engineShapes := [.level 2 none], draft := none,
            selected := some "L", interaction := .idle }).userShapes =
      [.level "a" 0 none 1] ∧
    (undo { userShapes := [.level "a" 0 none 1, lvl100],
            engineShapes := [.level 2 none], draft := none,
            selected := some "L", interaction := .idle }).engineShapes =
      [.level 2 none] := by
  have h := undo_removes_last_user_shape
    { userShapes := [.level "a" 0 none 1, lvl100],
      engineShapes := [.level 2 none], draft := none,
      selected := some "L", interaction := .idle }
    [.level "a" 0 none 1] lvl100 rfl
  exact ⟨h.1, h.2.1⟩

/-- **C4 counterexample** — the claim states the zone anchor `a.time`
equals the first loaded candle's time whenever candles are loaded; but
the anchor uses JavaScript truthiness (`data.at(0)?.time ? … : fallback`),
so a loaded candle whose time is the falsy number `0` still triggers the
fallback: with one candle at time 0 and `now = 5000`, the produced zone
has `a.time = 1400 (= 5000 − 3600) ≠ 0`. -/
theorem engine_anchor_zero_time_cex :
    buildEngineShapes [⟨0, 1, 1, 1, 1⟩] 5000
        ⟨[], [⟨.finite 1, .finite 2, none⟩], []⟩ =
      [.zone ⟨1400, 1⟩ ⟨5000, 2⟩ none false] ∧
    (1400 : ℚ) ≠ 0 := by
  constructor
  · simp only [buildEngineShapes, anchorT1, anchorT2, List.filterMap_nil,
      List.filterMap_cons]
    norm_num
  · norm_num

/-- **C4 (amended)** — the adapter produces one Level per finite-priced
`levels` entry and one Zone per finite `zones`/`fiboZones` entry, zones
anchored horizontally with `a.time = t1` and `b.time = t2`, where `t1`
is the first loaded candle's time (falling back to `now − 3600` when no
candles are loaded *or* the first candle's time is the falsy value 0)
and `t2` is the last loaded candle's time (falling back to `now`
likewise); entries with non-finite numeric fields are skipped
individually without aborting the rest.  The concrete payload
`{levels:[{price:1.2345}], zones:[{priceFrom:1.0, priceTo:1.1}]}` over
candles `t ∈ [1000, 2000]` yields exactly one Level at 1.2345 and one
Zone anchored on `[1000, 2000]`. -/
theorem engine_adapter_shapes :
    (∀ (data : List Candle) (now : ℚ) (c0 : Candle),
      data.head? = some c0 → c0.time ≠ 0 → anchorT1 data now = c0.time) ∧
    (∀ now : ℚ, anchorT1 [] now = now - 3600) ∧
    (∀ (data : List Candle) (now : ℚ) (c0 : Candle),
      data.head? = some c0 → c0.time = 0 → anchorT1 data now = now - 3600) ∧
    (∀ (data : List Candle) (now : ℚ) (cl : Candle),
      data.getLast? = some cl → cl.time ≠ 0 → anchorT2 data now = cl.time) ∧
    (∀ now : ℚ, anchorT2 [] now = now) ∧
    (∀ (data : List Candle) (now : ℚ) (cl : Candle),
      data.getLast? = some cl → cl.time = 0 → anchorT2 data now = now) ∧
    (∀ (data : List Candle) (now : ℚ) (ann : EngineAnnotations)
       (a b : Point) (l : Option String) (g : Bool),
      EngineShape.zone a b l g ∈ buildEngineShapes data now ann →
      a.time = anchorT1 data now ∧ b.time = anchorT2 data now) ∧
    (∀ (data : List Candle) (now : ℚ) (ann : EngineAnnotations),
      (buildEngineShapes data now ann).filter EngineShape.isLevelShape =
        ann.levels.filterMap (fun lvl =>
          match lvl.price with
          | .finite q => some (.level q lvl.label)
          | _ => none)) ∧
    (∀ (data : List Candle) (now : ℚ) (lpre lpost : List EngineLevelRaw)
       (bad : EngineLevelRaw) (zs fz : List EngineZoneRaw),
      bad.price.isFinite = false →
      buildEngineShapes data now ⟨lpre ++ bad :: lpost, zs, fz⟩ =
        buildEngineShapes data now ⟨lpre ++ lpost, zs, fz⟩) ∧
    (∀ (data : List Candle) (now : ℚ) (ls : List EngineLevelRaw)
       (zpre zpost : List EngineZoneRaw) (bad : EngineZoneRaw)
       (fz : List EngineZoneRaw),
      (bad.priceFrom.isFinite && bad.priceTo.isFinite) = false →
      buildEngineShapes data now ⟨ls, zpre ++ bad :: zpost, fz⟩ =
        buildEngineShapes data now ⟨ls, zpre ++ zpost, fz⟩) ∧
    buildEngineShapes c4data 99999 c4ann =
      [.level (2469 / 2000) none, .zone ⟨1000, 1⟩ ⟨2000, 11 / 10⟩ none false] := by
  refine ⟨?_, fun now => rfl, ?_, ?_, fun now => rfl, ?_, ?_, ?_, ?_, ?_, by
    simp only [buildEngineShapes, anchorT1, anchorT2, c4data, c4ann,
      List.filterMap_nil, List.filterMap_cons]
    norm_num⟩
  · intro data now c0 h h0
    simp [anchorT1, h, h0]
  · intro data now c0 h h0
    simp [anchorT1, h, h0]
  · intro data now cl h h0
    simp [anchorT2, h, h0]
  · intro data now cl h h0
    simp [anchorT2, h, h0]
  · intro data now ann a b l g hmem
    simp only [buildEngineShapes, List.mem_append] at hmem
    rcases hmem with (h1 | h2) | h3
    · exfalso
      rcases List.mem_filterMap.mp h1 with ⟨lvl, _, hf⟩
      cases hp : lvl.price <;> simp [hp] at hf
    · rcases List.mem_filterMap.mp h2 with ⟨z, _, hf⟩
      cases hp1 : z.priceFrom <;> cases hp2 : z.priceTo <;>
        simp only [hp1, hp2] at hf <;>
        first
          | exact Option.noConfusion hf
          | exact (by
              injection hf with hf2
              injection hf2 with h1 h2 h3 h4
              exact ⟨by rw [← h1], by rw [← h2]⟩)
    · rcases List.mem_filterMap.mp h3 with ⟨z, _, hf⟩
      cases hp1 : z.priceFrom <;> cases hp2 : z.priceTo <;>
        simp only [hp1, hp2] at hf <;>
        first
          | exact Option.noConfusion hf
          | exact (by
              injection hf with hf2
              injection hf2 with h1 h2 h3 h4
              exact ⟨by rw [← h1], by rw [← h2]⟩)
  · intro data now ann
    simp only [buildEngineShapes, List.filter_append]
    rw [filter_filterMap_all _ _ _ ?hall, filter_filterMap_none _ _ _ ?hz1,
      filter_filterMap_none _ _ _ ?hz2]
    case hall =>
      intro lvl s hf
      cases hp : lvl.price <;> simp [hp] at hf
      rw [← hf]
      rfl
    case hz1 =>
      intro z s hf
      cases hp1 : z.priceFrom <;> cases hp2 : z.priceTo <;>
        simp [hp1, hp2] at hf
      rw [← hf]
      rfl
    case hz2 =>
      intro z s hf
      cases hp1 : z.priceFrom <;> cases hp2 : z.priceTo <;>
        simp [hp1, hp2] at hf
      rw [← hf]
      rfl
    simp
  · intro data now lpre lpost bad zs fz hbad
    simp only [buildEngineShapes, List.filterMap_append, List.filterMap_cons]
    cases hp : bad.price <;> simp_all [JSNum.isFinite]
  · intro data now ls zpre zpost bad fz hbad
    simp only [buildEngineShapes, List.filterMap_append, List.filterMap_cons]
    cases hp1 : bad.priceFrom <;> cases hp2 : bad.priceTo <;>
      simp_all [JSNum.isFinite]

/-- **C4 witness** — the theorem's anchor clauses applied at concrete
buffers: the C4 example data anchors on `[1000, 2000]`, an empty buffer
falls back to `now − 3600`, and a `NaN`-priced level entry is skipped
without disturbing the rest. -/
theorem engine_adapter_shapes_witness :
    anchorT1 c4data 99999 = 1000 ∧
    anchorT2 c4data 99999 = 2000 ∧
    anchorT1 [] 5000 = 1400 ∧
    buildEngineShapes c4data 99999
        ⟨[⟨.nan, none⟩], c4ann.zones, []⟩ =
      buildEngineShapes c4data 99999 ⟨[], c4ann.zones, []⟩ := by
  refine ⟨engine_adapter_shapes.1 c4data 99999 ⟨1000, 1, 1, 1, 1⟩ rfl (by norm_num),
    engine_adapter_shapes.2.2.2.1 c4data 99999 ⟨2000, 1, 1, 1, 1⟩ rfl (by norm_num),
    ?_, ?_⟩
  · rw [engine_adapter_shapes.2.1 5000]
    norm_num
  · exact engine_adapter_shapes.2.2.2.2.2.2.2.2.1 c4data 99999 [] []
      ⟨.nan, none⟩ c4ann.zones [] rfl

/-- **C5 counterexample** — the claim states every mid-gesture pointer
event (move *or up*) with out-of-domain coordinates is ignored with the
gesture state preserved; but `onPointerUp` in Drawing state with an
invalid end point discards the draft and resets the interaction to
`'none'`, so the state is not preserved. -/
theorem pointer_up_out_of_domain_cex :
    toPoint ctxNone ⟨3, 4⟩ = none ∧
    onPointerUp ctxNone stDrawing ⟨3, 4⟩ ≠ stDrawing := by
  refine ⟨rfl, fun h => ?_⟩
  have hd := congrArg BoardState.draft h
  simp [onPointerUp, stDrawing, toPoint, ctxNone] at hd

/-- **C5 (amended)** — mid-gesture pointer-*move* events whose
coordinates fall outside the valid domain are ignored and the in-flight
gesture state (draft, store, interaction mode) is preserved unchanged;
a pointer-*up* in Drawing state with an out-of-domain end point instead
discards the draft and resets to Idle without committing a shape, and a
pointer-up in Dragging state always ends the drag. -/
theorem out_of_domain_gesture_handling :
    (∀ (ctx : ToolContext) (st : BoardState) (p : Pointer)
       (tool : DrawTool) (start : Pointer),
      st.interaction = .drawing tool start → toPoint ctx p = none →
      onPointerMove ctx st p = st) ∧
    (∀ (ctx : ToolContext) (st : BoardState) (p : Pointer)
       (sid : String) (start : Pointer) (orig : UserShape),
      st.interaction = .dragging sid start orig →
      (toPoint ctx start = none ∨ toPoint ctx p = none) →
      onPointerMove ctx st p = st) ∧
    (∀ (ctx : ToolContext) (st : BoardState) (p : Pointer)
       (tool : DrawTool) (start : Pointer),
      st.interaction = .drawing tool start → toPoint ctx p = none →
      onPointerUp ctx st p =
        { st with draft := none, interaction := .idle }) ∧
    (∀ (ctx : ToolContext) (st : BoardState) (p : Pointer)
       (sid : String) (start : Pointer) (orig : UserShape),
      st.interaction = .dragging sid start orig →
      onPointerUp ctx st p = { st with interaction := .idle }) := by
  refine ⟨?_, ?_, ?_, ?_⟩
  · intro ctx st p tool start h hp
    simp [onPointerMove, h, hp]
  · intro ctx st p sid start orig h hp
    rcases hp with hp | hp
    · simp [onPointerMove, h, hp]
    · cases hs : toPoint ctx start <;> simp [onPointerMove, h, hp, hs]
  · intro ctx st p tool start h hp
    simp [onPointerUp, h, hp]
  · intro ctx st p sid start orig h
    simp [onPointerUp, h]

/-- **C5 witness** — the amended theorem applied at a concrete
out-of-domain bridge: the drawing-mode move is a no-op, and the
drawing-mode up discards the draft and idles. -/
theorem out_of_domain_gesture_handling_witness :
    onPointerMove ctxNone stDrawing ⟨3, 4⟩ = stDrawing ∧
    onPointerUp ctxNone stDrawing ⟨3, 4⟩ =
      { stDrawing with draft := none, interaction := .idle } :=
  ⟨out_of_domain_gesture_handling.1 ctxNone stDrawing ⟨3, 4⟩
      .trendline ⟨0, 0⟩ rfl rfl,
   out_of_domain_gesture_handling.2.2.1 ctxNone stDrawing ⟨3, 4⟩
      .trendline ⟨0, 0⟩ rfl rfl⟩

/-- **C1** — for a drag whose original snapshot is `orig` (id = dragged
id), after any sequence of intermediate pointer-move events followed by
a final move whose pointer and anchor map to domain points `np` and `sp`
(delta `(Δtime, Δprice) = (np.time − sp.time, np.price − sp.price)`),
the store holds exactly the original snapshot translated by that final
delta — the translation is applied to the original snapshot, never
cumulatively, so the result is independent of the intermediate moves;
for a Zone or Trendline `a = {t0,p0}, b = {t1,p1}` the translated shape
is `a' = {t0+Δtime, p0+Δprice}, b' = {t1+Δtime, p1+Δprice}`. -/
theorem drag_translates_original_snapshot :
    (∀ (st : BoardState) (sid : String) (start : Pointer) (orig : UserShape)
       (moves : List (ToolContext × Pointer)) (c : ToolContext) (p : Pointer)
       (sp np : Point),
      st.interaction = .dragging sid start orig → orig.id = sid →
      toPoint c start = some sp → toPoint c p = some np →
      (processMoves st (moves ++ [(c, p)])).userShapes =
        st.userShapes.map (fun s =>
          if s.id = sid then
            dragTranslate orig (np.time - sp.time) (np.price - sp.price)
          else s)) ∧
    (∀ (i : String) (cA : ℚ) (l : Option String) (t0 p0 t1 p1 dt dp : ℚ),
      dragTranslate (.zone i cA l ⟨t0, p0⟩ ⟨t1, p1⟩) dt dp =
        .zone i cA l ⟨t0 + dt, p0 + dp⟩ ⟨t1 + dt, p1 + dp⟩) ∧
    (∀ (i : String) (cA : ℚ) (l : Option String) (t0 p0 t1 p1 dt dp : ℚ),
      dragTranslate (.trendline i cA l ⟨t0, p0⟩ ⟨t1, p1⟩) dt dp =
        .trendline i cA l ⟨t0 + dt, p0 + dp⟩ ⟨t1 + dt, p1 + dp⟩) := by
  refine ⟨?_, fun i cA l t0 p0 t1 p1 dt dp => rfl,
    fun i cA l t0 p0 t1 p1 dt dp => rfl⟩
  intro st sid start orig moves c p sp np h hid hsp hnp
  obtain ⟨hint, hdrag⟩ :=
    processMoves_dragging_inv sid start orig hid moves st h
  have happ : processMoves st (moves ++ [(c, p)]) =
      onPointerMove c (processMoves st moves) p := by
    simp [processMoves]
  rw [happ]
  simp only [onPointerMove, hint, hsp, hnp]
  exact hdrag (np.time - sp.time) (np.price - sp.price)

/-- **C1 witness** — the theorem applied to a concrete drag of the zone
`zOrig = {a:{1,2}, b:{3,4}}`: one intermediate out-of-domain move plus a
final move of delta `(10, −2)` yields exactly
`{a:{11,0}, b:{13,2}}`. -/
theorem drag_translates_original_snapshot_witness :
    (processMoves dragSt [(ctxNone, ⟨9, 9⟩), (ctxId, ⟨10, -2⟩)]).userShapes =
      [.zone "z" 0 none ⟨11, 0⟩ ⟨13, 2⟩] := by
  have h := drag_translates_original_snapshot.1 dragSt "z" ⟨0, 0⟩ zOrig
    [(ctxNone, ⟨9, 9⟩)] ctxId ⟨10, -2⟩ ⟨0, 0⟩ ⟨10, -2⟩ rfl rfl rfl rfl
  rw [show ([(ctxNone, (⟨9, 9⟩ : Pointer))] ++ [(ctxId, (⟨10, -2⟩ : Pointer))]) =
    [(ctxNone, (⟨9, 9⟩ : Pointer)), (ctxId, (⟨10, -2⟩ : Pointer))] from rfl] at h
  rw [h]
  norm_num [dragSt, zOrig, dragTranslate, UserShape.id]

/-- **C10** — a drag update rewrites only the dragged shape, keeping the
original snapshot's `id`, `kind`, `createdAt` and `label` and changing
only the geometric fields; every store entry whose id differs from the
dragged id is returned exactly as it was (same position, same value),
and the dragging pointer-move touches nothing but `userShapes`. -/
theorem drag_preserves_identity_fields :
    (∀ (orig : UserShape) (dt dp : ℚ),
      (dragTranslate orig dt dp).id = orig.id ∧
      (dragTranslate orig dt dp).kind = orig.kind ∧
      (dragTranslate orig dt dp).createdAt = orig.createdAt ∧
      (dragTranslate orig dt dp).label = orig.label) ∧
    (∀ (orig : UserShape) (sid : String) (shapes : List UserShape)
       (dt dp : ℚ),
      (dragStep orig sid shapes dt dp).length = shapes.length) ∧
    (∀ (orig : UserShape) (sid : String) (shapes : List UserShape)
       (dt dp : ℚ) (i : ℕ) (s : UserShape),
      shapes[i]? = some s → s.id ≠ sid →
      (dragStep orig sid shapes dt dp)[i]? = some s) ∧
    (∀ (orig : UserShape) (sid : String) (shapes : List UserShape)
       (dt dp : ℚ) (i : ℕ) (s : UserShape),
      shapes[i]? = some s → s.id = sid →
      (dragStep orig sid shapes dt dp)[i]? =
        some (dragTranslate orig dt dp)) ∧
    (∀ (ctx : ToolContext) (st : BoardState) (p : Pointer)
       (sid : String) (start : Pointer) (orig : UserShape) (sp np : Point),
      st.interaction = .dragging sid start orig →
      toPoint ctx start = some sp → toPoint ctx p = some np →
      (onPointerMove ctx st p).userShapes =
        dragStep orig sid st.userShapes (np.time - sp.time)
          (np.price - sp.price) ∧
      (onPointerMove ctx st p).engineShapes = st.engineShapes ∧
      (onPointerMove ctx st p).draft = st.draft ∧
      (onPointerMove ctx st p).selected = st.selected) := by
  refine ⟨?_, ?_, ?_, ?_, ?_⟩
  · intro orig dt dp
    cases orig <;>
      simp [dragTranslate, UserShape.id, UserShape.kind, UserShape.createdAt,
        UserShape.label]
  · intro orig sid shapes dt dp
    simp [dragStep]
  · intro orig sid shapes dt dp i s hi hne
    simp only [dragStep, List.getElem?_map, hi, Option.map_some]
    simp [hne]
  · intro orig sid shapes dt dp i s hi hide
    simp only [dragStep, List.getElem?_map, hi, Option.map_some]
    simp [hide]
  · intro ctx st p sid start orig sp np h hsp hnp
    simp only [onPointerMove, h, hsp, hnp]
    exact ⟨trivial, trivial, trivial, trivial⟩

/-- **C10 witness** — the theorem applied at concrete inputs: the
translated zone snapshot keeps id "z", kind "zone", `createdAt` 0 and no
label, and a store entry with a different id is untouched by the drag
step. -/
theorem drag_preserves_identity_fields_witness :
    (dragTranslate zOrig 10 (-2)).id = "z" ∧
    (dragTranslate zOrig 10 (-2)).kind = "zone" ∧
    (dragStep zOrig "z" [lvl100, zOrig] 10 (-2))[0]? = some lvl100 ∧
    (dragStep zOrig "z" [lvl100, zOrig] 10 (-2))[1]? =
      some (dragTranslate zOrig 10 (-2)) := by
  refine ⟨?_, ?_, ?_, ?_⟩
  · rw [(drag_preserves_identity_fields.1 zOrig 10 (-2)).1]
    rfl
  · rw [(drag_preserves_identity_fields.1 zOrig 10 (-2)).2.1]
    rfl
  · exact drag_preserves_identity_fields.2.2.1 zOrig "z" [lvl100, zOrig]
      10 (-2) 0 lvl100 rfl (by simp [lvl100, UserShape.id])
  · exact drag_preserves_identity_fields.2.2.2.1 zOrig "z" [lvl100, zOrig]
      10 (-2) 1 zOrig rfl rfl

end JKM
